import Mathlib

/-!
Shallow embedding of `src/shared/camera.js`: an interactive orbit camera.
Camera pose state and its mutation operations (orbit, pan, zoom, adjFOV,
adjFOVWithoutZoom, reset, handleInputs) are translated into pure Lean
functions over `ℝ`; the DOM event listeners (keydown, keyup, wheel) become
state-transition functions.  Renderer and GUI side effects (updateMatrix,
the gui.io calls) have no bearing on the pose state and are omitted.
-/

namespace CameraSpec

/-- Modelled from the spec: the external VectorMath dependency's 3-vectors
(`vec3`): componentwise container of three scalars. -/
structure Vec3 where
  x : ℝ
  y : ℝ
  z : ℝ

/-- Modelled from the spec: `vec3.add`, componentwise addition. -/
noncomputable def Vec3.add (a b : Vec3) : Vec3 := ⟨a.x + b.x, a.y + b.y, a.z + b.z⟩

/-- Modelled from the spec: `vec3.subtract`, componentwise subtraction. -/
noncomputable def Vec3.sub (a b : Vec3) : Vec3 := ⟨a.x - b.x, a.y - b.y, a.z - b.z⟩

/-- Modelled from the spec: `vec3.scale`, scalar multiple. -/
noncomputable def Vec3.scale (a : Vec3) (s : ℝ) : Vec3 := ⟨a.x * s, a.y * s, a.z * s⟩

/-- Modelled from the spec: `vec3.scaleAndAdd a b s = a + b·s` (scale-add). -/
noncomputable def Vec3.scaleAndAdd (a b : Vec3) (s : ℝ) : Vec3 :=
  ⟨a.x + b.x * s, a.y + b.y * s, a.z + b.z * s⟩

/-- Modelled from the spec: `vec3.cross`, the 3D cross product. -/
noncomputable def Vec3.cross (a b : Vec3) : Vec3 :=
  ⟨a.y * b.z - a.z * b.y, a.z * b.x - a.x * b.z, a.x * b.y - a.y * b.x⟩

/-- Modelled from the spec: `vec3.normalize`, unit vector in the same
direction (zero vector maps to zero). -/
noncomputable def Vec3.normalize (v : Vec3) : Vec3 :=
  let len := Real.sqrt (v.x ^ 2 + v.y ^ 2 + v.z ^ 2)
  if len = 0 then ⟨0, 0, 0⟩ else ⟨v.x / len, v.y / len, v.z / len⟩

/-- `clamp(x, min, max) = Math.max(min, Math.min(max, x))` from camera.js. -/
noncomputable def clamp (x mn mx : ℝ) : ℝ := max mn (min mx x)

/-- `toRad(x) = x * Math.PI / 180` from camera.js. -/
noncomputable def toRad (x : ℝ) : ℝ := x * Real.pi / 180

noncomputable def ROT_SPEED : ℝ := 0.005

noncomputable def PAN_SPEED : ℝ := 0.001

noncomputable def ZOOM_SPEED : ℝ := 0.0005

noncomputable def FOV_SPEED : ℝ := 0.0002

noncomputable def KEY_ROT_SPEED : ℝ := 3 / 15

noncomputable def KEY_PAN_SPEED : ℝ := 5 / 15

noncomputable def KEY_ZOOM_SPEED : ℝ := 0.01 / 15

noncomputable def KEY_FOV_SPEED : ℝ := 0.005 / 15

noncomputable def minFOV : ℝ := toRad 1

noncomputable def maxFOV : ℝ := toRad 120

/-- Construction-time configuration record (the `defaults` object). -/
structure CameraDefaults where
  target : Vec3
  distance : ℝ
  position : Vec3
  azimuth : ℝ
  elevation : ℝ
  fov : ℝ
  near : ℝ
  far : ℝ
  invertMatrix : Bool

/-- The module-level `defaults` constant of camera.js. -/
noncomputable def defaults : CameraDefaults where
  target := ⟨0, 0, 0⟩
  distance := 1
  position := ⟨0, 0, 0⟩
  azimuth := 0
  elevation := 0
  fov := toRad 60
  near := 0.1
  far := 1e2
  invertMatrix := true

/-- The mutable fields of the `Camera` class. -/
structure Camera where
  target : Vec3
  distance : ℝ
  position : Vec3
  azimuth : ℝ
  elevation : ℝ
  fov : ℝ
  near : ℝ
  far : ℝ
  worldUp : Vec3
  invertMatrix : Bool

/-- `Camera.updatePosition`: recomputes `position` from the spherical pose
`target + distance · (cos el · sin az, sin el, cos el · cos az)`.  The
trailing `updateMatrix` and gui.io readout calls touch only external
collaborators, not the pose, and are omitted. -/
noncomputable def updatePosition (c : Camera) : Camera :=
  let x := Real.cos c.elevation * Real.sin c.azimuth
  let y := Real.sin c.elevation
  let z := Real.cos c.elevation * Real.cos c.azimuth
  { c with position := Vec3.scaleAndAdd c.target ⟨x, y, z⟩ c.distance }

/-- The `Camera` constructor applied to a defaults record. -/
noncomputable def mkCamera (d : CameraDefaults) : Camera :=
  updatePosition
    { target := d.target
      distance := d.distance
      position := d.position
      azimuth := d.azimuth
      elevation := d.elevation
      fov := d.fov
      near := d.near
      far := d.far
      worldUp := ⟨0, 1, 0⟩
      invertMatrix := d.invertMatrix }

/-- `get viewDir()`: normalize(target - position). -/
noncomputable def viewDir (c : Camera) : Vec3 := Vec3.normalize (Vec3.sub c.target c.position)

/-- `get viewRight()`: normalize(cross(viewDir, worldUp)). -/
noncomputable def viewRight (c : Camera) : Vec3 := Vec3.normalize (Vec3.cross (viewDir c) c.worldUp)

/-- `get viewUp()`: normalize(cross(viewRight, viewDir)). -/
noncomputable def viewUp (c : Camera) : Vec3 := Vec3.normalize (Vec3.cross (viewRight c) (viewDir c))

/-- `Camera.orbit(dx, dy)`. -/
noncomputable def orbit (c : Camera) (dx dy : ℝ) : Camera :=
  let az := c.azimuth - dx * ROT_SPEED
  let el := c.elevation + dy * ROT_SPEED
  let limit := Real.pi / 2 - 0.01
  updatePosition { c with azimuth := az, elevation := clamp el (-limit) limit }

/-- `Camera.pan(dx, dy, dz = 0)`. -/
noncomputable def pan (c : Camera) (dx dy dz : ℝ) : Camera :=
  let adjustedPanSpeed := PAN_SPEED * c.distance * c.fov
  let p := Vec3.scaleAndAdd
    (Vec3.scaleAndAdd (Vec3.scale (viewRight c) (-dx * adjustedPanSpeed))
      (viewUp c) (dy * adjustedPanSpeed))
    (viewDir c) (dz * adjustedPanSpeed)
  updatePosition { c with target := Vec3.add c.target p, position := Vec3.add c.position p }

/-- `Camera.zoom(delta)`: `distance = clamp((delta + 1) * distance, near, far)`. -/
noncomputable def zoom (c : Camera) (delta : ℝ) : Camera :=
  updatePosition { c with distance := clamp ((delta + 1) * c.distance) c.near c.far }

/-- `Camera.adjFOV(delta)`: `fov = clamp(fov + delta, minFOV, maxFOV)`. -/
noncomputable def adjFOV (c : Camera) (delta : ℝ) : Camera :=
  updatePosition { c with fov := clamp (c.fov + delta) minFOV maxFOV }

/-- `Camera.adjFOVWithoutZoom(delta)`: preserves `tan(fov/2)·distance` by
recomputing `distance` after the FOV change. -/
noncomputable def adjFOVWithoutZoom (c : Camera) (delta : ℝ) : Camera :=
  let initial := Real.tan (c.fov / 2) * c.distance
  let fov' := clamp (c.fov + delta) minFOV maxFOV
  updatePosition { c with fov := fov', distance := initial / Real.tan (fov' / 2) }

/-- Modifier flags carried by a mouse or key event, as read by `reset`. -/
structure ModKeys where
  ctrlKey : Bool
  altKey : Bool

/-- `Camera.reset(e)`. -/
noncomputable def reset (c : Camera) (e : ModKeys) : Camera :=
  let c1 := { c with fov := defaults.fov }
  let c2 := if !e.ctrlKey then { c1 with distance := defaults.distance } else c1
  let c3 :=
    if !e.altKey && !e.ctrlKey then
      { c2 with azimuth := defaults.azimuth, elevation := defaults.elevation,
                target := defaults.target }
    else c2
  updatePosition c3

/-- The `keyState.orbit` boolean map. -/
structure OrbitDirs where
  up : Bool
  down : Bool
  left : Bool
  right : Bool

/-- The `keyState.pan` boolean map. -/
structure PanDirs where
  up : Bool
  down : Bool
  left : Bool
  right : Bool
  forward : Bool
  backward : Bool

/-- The `keyState.zoom` boolean map (`in`/`out` renamed `zin`/`zout`). -/
structure ZoomDirs where
  zin : Bool
  zout : Bool

/-- The module-level `keyState` object. -/
structure KeyState where
  orbit : OrbitDirs
  pan : PanDirs
  zoom : ZoomDirs

/-- The five module-level derived activity flags. -/
structure KeyFlags where
  keyOrbit : Bool
  keyPan : Bool
  keyZoom : Bool
  keyFOV : Bool
  keyFOVWithoutZoom : Bool

/-- JS implicit Bool-to-Number coercion used in `(left - right) * speed`. -/
noncomputable def b2r (b : Bool) : ℝ := if b then 1 else 0

/-- `Camera.handleInputs(speedMultiplier)`: sequential (non-exclusive) ifs
applying each active category once per tick. -/
noncomputable def handleInputs (fl : KeyFlags) (ks : KeyState) (c : Camera) (m : ℝ) : Camera :=
  let c1 :=
    if fl.keyOrbit then
      orbit c ((b2r ks.orbit.left - b2r ks.orbit.right) * (KEY_ROT_SPEED * m))
        ((b2r ks.orbit.up - b2r ks.orbit.down) * (KEY_ROT_SPEED * m))
    else c
  let c2 :=
    if fl.keyPan then
      pan c1 ((b2r ks.pan.left - b2r ks.pan.right) * (KEY_PAN_SPEED * m))
        ((b2r ks.pan.up - b2r ks.pan.down) * (KEY_PAN_SPEED * m))
        ((b2r ks.pan.forward - b2r ks.pan.backward) * (KEY_PAN_SPEED * m))
    else c1
  let c3 :=
    if fl.keyZoom then
      zoom c2 ((b2r ks.zoom.zout - b2r ks.zoom.zin) * KEY_ZOOM_SPEED * m)
    else c2
  let c4 :=
    if fl.keyFOV then
      adjFOV c3 ((b2r ks.zoom.zout - b2r ks.zoom.zin) * KEY_FOV_SPEED * m)
    else c3
  if fl.keyFOVWithoutZoom then
    adjFOVWithoutZoom c4 ((b2r ks.zoom.zout - b2r ks.zoom.zin) * KEY_FOV_SPEED * m)
  else c4

/-- Category of a bound key in the `keyMap` table. -/
inductive KeyType where
  | orbit
  | pan
  | zoom
deriving DecidableEq

/-- Direction of a bound key in the `keyMap` table. -/
inductive KeyDir where
  | up
  | down
  | left
  | right
  | forward
  | backward
  | zin
  | zout
deriving DecidableEq

/-- The `keyMap` lookup table. -/
def keyMap : String → Option (KeyType × KeyDir)
  | "ArrowUp" => some (.orbit, .up)
  | "ArrowDown" => some (.orbit, .down)
  | "ArrowLeft" => some (.orbit, .left)
  | "ArrowRight" => some (.orbit, .right)
  | "w" => some (.pan, .forward)
  | "a" => some (.pan, .left)
  | "s" => some (.pan, .backward)
  | "d" => some (.pan, .right)
  | "g" => some (.pan, .up)
  | "v" => some (.pan, .down)
  | "f" => some (.zoom, .zin)
  | "c" => some (.zoom, .zout)
  | _ => none

/-- `keyState[type][dir] = val` for the combinations `keyMap` produces. -/
def setKey (ks : KeyState) (t : KeyType) (d : KeyDir) (val : Bool) : KeyState :=
  match t, d with
  | .orbit, .up => { ks with orbit := { ks.orbit with up := val } }
  | .orbit, .down => { ks with orbit := { ks.orbit with down := val } }
  | .orbit, .left => { ks with orbit := { ks.orbit with left := val } }
  | .orbit, .right => { ks with orbit := { ks.orbit with right := val } }
  | .pan, .up => { ks with pan := { ks.pan with up := val } }
  | .pan, .down => { ks with pan := { ks.pan with down := val } }
  | .pan, .left => { ks with pan := { ks.pan with left := val } }
  | .pan, .right => { ks with pan := { ks.pan with right := val } }
  | .pan, .forward => { ks with pan := { ks.pan with forward := val } }
  | .pan, .backward => { ks with pan := { ks.pan with backward := val } }
  | .zoom, .zin => { ks with zoom := { ks.zoom with zin := val } }
  | .zoom, .zout => { ks with zoom := { ks.zoom with zout := val } }
  | _, _ => ks

/-- A keyboard event as consumed by `keyCamera` and the key listeners:
its key string, modifier flags, and whether `e.target.tagName === "INPUT"`. -/
structure KeyEvent where
  key : String
  ctrlKey : Bool
  altKey : Bool
  targetIsInput : Bool

/-- The early-return guard of `keyCamera`:
`!keyMap[e.key] || e.target.tagName === "INPUT" || (e.key === "r" && e.ctrlKey)`. -/
def keyGuard (e : KeyEvent) : Bool :=
  (keyMap e.key).isNone || e.targetIsInput || (e.key == "r" && e.ctrlKey)

/-- `keyCamera(e, val)`: updates `keyState` and recomputes the five derived
activity flags from the event's modifier state. -/
def keyCamera (e : KeyEvent) (val : Bool) (ks : KeyState) (fl : KeyFlags) :
    KeyState × KeyFlags :=
  if keyGuard e then (ks, fl)
  else
    match keyMap e.key with
    | none => (ks, fl)
    | some (t, d) =>
      let ks' := setKey ks t d val
      let zoomActive := ks'.zoom.zin || ks'.zoom.zout
      let fl' : KeyFlags :=
        { keyOrbit := ks'.orbit.up || ks'.orbit.down || ks'.orbit.left || ks'.orbit.right
          keyPan := ks'.pan.up || ks'.pan.down || ks'.pan.left || ks'.pan.right ||
            ks'.pan.forward || ks'.pan.backward
          keyZoom := !(e.ctrlKey || e.altKey) && zoomActive
          keyFOV := e.ctrlKey && zoomActive
          keyFOVWithoutZoom := e.altKey && zoomActive }
      (ks', fl')

/-- The `keydown` listener: the switch resets the camera on the space key
(and only calls preventDefault on Alt), then delegates to `keyCamera(e, true)`. -/
noncomputable def keydownListener (e : KeyEvent) (ks : KeyState) (fl : KeyFlags) (c : Camera) :
    KeyState × KeyFlags × Camera :=
  let c' := if e.key == " " then reset c ⟨e.ctrlKey, e.altKey⟩ else c
  let p := keyCamera e true ks fl
  (p.1, p.2, c')

/-- The `keyup` listener: `keyCamera(e, false)`, camera untouched. -/
noncomputable def keyupListener (e : KeyEvent) (ks : KeyState) (fl : KeyFlags) (c : Camera) :
    KeyState × KeyFlags × Camera :=
  let p := keyCamera e false ks fl
  (p.1, p.2, c)

/-- A wheel event as consumed by the wheel listener. -/
structure WheelEvent where
  deltaY : ℝ
  ctrlKey : Bool
  altKey : Bool

/-- The `wheel` listener: alt selects adjFOVWithoutZoom, otherwise ctrl
selects adjFOV, otherwise zoom. -/
noncomputable def wheelListener (e : WheelEvent) (c : Camera) : Camera :=
  if e.altKey then adjFOVWithoutZoom c (e.deltaY * FOV_SPEED)
  else if e.ctrlKey then adjFOV c (e.deltaY * FOV_SPEED)
  else zoom c (e.deltaY * ZOOM_SPEED)

/-- The distance invariant stated by the spec's data model. -/
def distInv (c : Camera) : Prop := c.near ≤ c.distance ∧ c.distance ≤ c.far

/-- The spherical pose `target + distance · (cos el · sin az, sin el, cos el · cos az)`
that `updatePosition` stores into `position`. -/
noncomputable def sphericalPos (c : Camera) : Vec3 :=
  Vec3.scaleAndAdd c.target
    ⟨Real.cos c.elevation * Real.sin c.azimuth, Real.sin c.elevation,
      Real.cos c.elevation * Real.cos c.azimuth⟩ c.distance

/-- The position invariant: `position` agrees with the spherical pose. -/
def posInv (c : Camera) : Prop := c.position = sphericalPos c

/-- Concrete camera with `distance = 10` and default clip planes, used in the
zoom scenario. -/
noncomputable def c10 : Camera where
  target := ⟨0, 0, 0⟩
  distance := 10
  position := ⟨0, 0, 0⟩
  azimuth := 0
  elevation := 0
  fov := toRad 60
  near := 0.1
  far := 1e2
  worldUp := ⟨0, 1, 0⟩
  invertMatrix := true

/-- Concrete camera at maximal FOV whose distance sits exactly at `far`. -/
noncomputable def cBad : Camera where
  target := ⟨0, 0, 0⟩
  distance := 1e2
  position := ⟨0, 0, 0⟩
  azimuth := 0
  elevation := 0
  fov := maxFOV
  near := 0.1
  far := 1e2
  worldUp := ⟨0, 1, 0⟩
  invertMatrix := true

/-- Concrete camera whose pose differs from the construction defaults
(fov is 1 radian rather than the default 60 degrees). -/
noncomputable def cFov1 : Camera where
  target := ⟨0, 0, 0⟩
  distance := 1
  position := ⟨0, 0, 0⟩
  azimuth := 0
  elevation := 0
  fov := 1
  near := 0.1
  far := 1e2
  worldUp := ⟨0, 1, 0⟩
  invertMatrix := true

/-- The all-false initial `keyState`. -/
def ks0 : KeyState :=
  ⟨⟨false, false, false, false⟩, ⟨false, false, false, false, false, false⟩, ⟨false, false⟩⟩

/-- The all-false initial derived flags. -/
def fl0 : KeyFlags := ⟨false, false, false, false, false⟩

/-- Keydown of `f` (zoom in) with both ctrl and alt held, focus outside inputs. -/
def eCtrlAltF : KeyEvent where
  key := "f"
  ctrlKey := true
  altKey := true
  targetIsInput := false

/-- Keydown of `f` (zoom in) with no modifiers, focus outside inputs. -/
def eF : KeyEvent where
  key := "f"
  ctrlKey := false
  altKey := false
  targetIsInput := false

/-- The space key with no modifiers, focus outside inputs. -/
def eSpace : KeyEvent where
  key := " "
  ctrlKey := false
  altKey := false
  targetIsInput := false

/-- The designated reset combo ctrl+R. -/
def eCtrlR : KeyEvent where
  key := "r"
  ctrlKey := true
  altKey := false
  targetIsInput := false

/-! ### Helper lemmas -/

theorem le_clamp (x lo hi : ℝ) : lo ≤ clamp x lo hi := le_max_left _ _

theorem clamp_le_of_le (x lo hi : ℝ) (h : lo ≤ hi) : clamp x lo hi ≤ hi :=
  max_le h (min_le_left _ _)

theorem clamp_eq_of_mem (x lo hi : ℝ) (h1 : lo ≤ x) (h2 : x ≤ hi) : clamp x lo hi = x := by
  unfold clamp
  rw [min_eq_right h2, max_eq_right h1]

theorem limit_pos : (0 : ℝ) < Real.pi / 2 - 0.01 := by
  have h := Real.pi_gt_three
  nlinarith

theorem minFOV_pos : 0 < minFOV := by
  unfold minFOV toRad
  positivity

theorem minFOV_le_maxFOV : minFOV ≤ maxFOV := by
  unfold minFOV maxFOV toRad
  have h := Real.pi_pos
  nlinarith

theorem maxFOV_half_lt_pi_div_two : maxFOV / 2 < Real.pi / 2 := by
  unfold maxFOV toRad
  have h := Real.pi_pos
  nlinarith

theorem tan_half_pos_of_fov_range (f : ℝ) (h1 : minFOV ≤ f) (h2 : f ≤ maxFOV) :
    0 < Real.tan (f / 2) := by
  apply Real.tan_pos_of_pos_of_lt_pi_div_two
  · have h := minFOV_pos
    linarith
  · have h := maxFOV_half_lt_pi_div_two
    linarith

theorem posInv_updatePosition (c : Camera) : posInv (updatePosition c) := rfl

theorem posInv_orbit (c : Camera) (dx dy : ℝ) : posInv (orbit c dx dy) :=
  posInv_updatePosition _

theorem posInv_pan (c : Camera) (dx dy dz : ℝ) : posInv (pan c dx dy dz) :=
  posInv_updatePosition _

theorem posInv_zoom (c : Camera) (delta : ℝ) : posInv (zoom c delta) :=
  posInv_updatePosition _

theorem posInv_adjFOV (c : Camera) (delta : ℝ) : posInv (adjFOV c delta) :=
  posInv_updatePosition _

theorem posInv_adjFOVWithoutZoom (c : Camera) (delta : ℝ) : posInv (adjFOVWithoutZoom c delta) :=
  posInv_updatePosition _

theorem posInv_reset (c : Camera) (e : ModKeys) : posInv (reset c e) :=
  posInv_updatePosition _

theorem posInv_mkCamera (d : CameraDefaults) : posInv (mkCamera d) :=
  posInv_updatePosition _

theorem posInv_handleInputs (fl : KeyFlags) (ks : KeyState) (c : Camera) (m : ℝ)
    (hc : posInv c) : posInv (handleInputs fl ks c m) := by
  rcases fl with ⟨o, p, z, f, g⟩
  cases o <;> cases p <;> cases z <;> cases f <;> cases g <;>
    simp [handleInputs, posInv_orbit, posInv_pan, posInv_zoom, posInv_adjFOV,
      posInv_adjFOVWithoutZoom, hc]

/-- The flags written by `keyCamera` when the guard passes and the key is bound. -/
theorem keyCamera_flags (e : KeyEvent) (val : Bool) (ks : KeyState) (fl : KeyFlags)
    (t : KeyType) (d : KeyDir) (hk : keyMap e.key = some (t, d)) (hg : keyGuard e = false) :
    (keyCamera e val ks fl).2.keyZoom =
      (!(e.ctrlKey || e.altKey) && ((setKey ks t d val).zoom.zin || (setKey ks t d val).zoom.zout)) ∧
    (keyCamera e val ks fl).2.keyFOV =
      (e.ctrlKey && ((setKey ks t d val).zoom.zin || (setKey ks t d val).zoom.zout)) ∧
    (keyCamera e val ks fl).2.keyFOVWithoutZoom =
      (e.altKey && ((setKey ks t d val).zoom.zin || (setKey ks t d val).zoom.zout)) := by
  unfold keyCamera
  simp [hg, hk]

/-! ### Claim theorems -/

/-- C2: `orbit(dx, dy)` subtracts `dx·ROT_SPEED` from azimuth and clamps
`elevation + dy·ROT_SPEED` to `[-(π/2-0.01), π/2-0.01]`, keeping elevation in
the pole-avoidance range; with the default start (distance 1, azimuth 0,
elevation 0) and `ROT_SPEED = 0.005`, `orbit(100, 0)` yields azimuth `-0.5`
and position `target + distance·(sin(-0.5), 0, cos(-0.5))`. -/
theorem orbit_rotation_spec (c : Camera) (dx dy : ℝ) :
    (orbit c dx dy).azimuth = c.azimuth - dx * ROT_SPEED ∧
    (orbit c dx dy).elevation =
      clamp (c.elevation + dy * ROT_SPEED) (-(Real.pi / 2 - 0.01)) (Real.pi / 2 - 0.01) ∧
    -(Real.pi / 2 - 0.01) ≤ (orbit c dx dy).elevation ∧
    (orbit c dx dy).elevation ≤ Real.pi / 2 - 0.01 ∧
    ROT_SPEED = 0.005 ∧
    (orbit (mkCamera defaults) 100 0).azimuth = -0.5 ∧
    (orbit (mkCamera defaults) 100 0).position =
      Vec3.scaleAndAdd (mkCamera defaults).target ⟨Real.sin (-0.5), 0, Real.cos (-0.5)⟩
        (mkCamera defaults).distance := by
  have haz : (0 : ℝ) - 100 * ROT_SPEED = -0.5 := by norm_num [ROT_SPEED]
  have hel : clamp ((0 : ℝ) + 0 * ROT_SPEED) (-(Real.pi / 2 - 0.01)) (Real.pi / 2 - 0.01) = 0 := by
    have h0 := limit_pos
    rw [show (0 : ℝ) + 0 * ROT_SPEED = 0 by ring]
    exact clamp_eq_of_mem _ _ _ (by linarith) (by linarith)
  refine ⟨rfl, rfl, le_clamp _ _ _, ?_, rfl, ?_, ?_⟩
  · exact clamp_le_of_le _ _ _ (by have h0 := limit_pos; linarith)
  · show (0 : ℝ) - 100 * ROT_SPEED = -0.5
    exact haz
  · show Vec3.scaleAndAdd (⟨0, 0, 0⟩ : Vec3)
        ⟨Real.cos (clamp ((0 : ℝ) + 0 * ROT_SPEED) (-(Real.pi / 2 - 0.01)) (Real.pi / 2 - 0.01)) *
            Real.sin ((0 : ℝ) - 100 * ROT_SPEED),
          Real.sin (clamp ((0 : ℝ) + 0 * ROT_SPEED) (-(Real.pi / 2 - 0.01)) (Real.pi / 2 - 0.01)),
          Real.cos (clamp ((0 : ℝ) + 0 * ROT_SPEED) (-(Real.pi / 2 - 0.01)) (Real.pi / 2 - 0.01)) *
            Real.cos ((0 : ℝ) - 100 * ROT_SPEED)⟩ 1 =
      Vec3.scaleAndAdd (⟨0, 0, 0⟩ : Vec3) ⟨Real.sin (-0.5), 0, Real.cos (-0.5)⟩ 1
    rw [hel, haz]
    simp [Real.cos_zero, Real.sin_zero]

/-- C3: `zoom(delta)` sets `distance` to `clamp(distance·(1+delta), near, far)`,
so the distance invariant holds afterwards whenever `near ≤ far`; concretely on
`c10` (distance 10, near 0.1, far 100), `zoom(0.1)` gives distance 11 and a
subsequent `zoom(-1)` clamps distance to `near`. -/
theorem zoom_clamp_spec (c : Camera) (delta : ℝ) (hnf : c.near ≤ c.far) :
    (zoom c delta).distance = clamp (c.distance * (1 + delta)) c.near c.far ∧
    c.near ≤ (zoom c delta).distance ∧
    (zoom c delta).distance ≤ c.far ∧
    (zoom c10 0.1).distance = 11 ∧
    (zoom (zoom c10 0.1) (-1)).distance = c10.near := by
  have h1 : (zoom c delta).distance = clamp ((delta + 1) * c.distance) c.near c.far := rfl
  refine ⟨?_, ?_, ?_, ?_, ?_⟩
  · rw [h1, show (delta + 1) * c.distance = c.distance * (1 + delta) by ring]
  · rw [h1]
    exact le_clamp _ _ _
  · rw [h1]
    exact clamp_le_of_le _ _ _ hnf
  · have h2 : (zoom c10 0.1).distance = clamp ((0.1 + 1) * 10) 0.1 (1e2) := rfl
    rw [h2, show ((0.1 : ℝ) + 1) * 10 = 11 by norm_num]
    exact clamp_eq_of_mem _ _ _ (by norm_num) (by norm_num)
  · have h3 : (zoom (zoom c10 0.1) (-1)).distance
        = clamp ((-1 + 1) * (zoom c10 0.1).distance) 0.1 (1e2) := rfl
    rw [h3, show ((-1 : ℝ) + 1) * (zoom c10 0.1).distance = 0 by ring]
    show clamp 0 0.1 (1e2) = c10.near
    unfold clamp
    rw [min_eq_right (by norm_num), max_eq_left (by norm_num)]
    rfl

/-- Witness for `zoom_clamp_spec` at `c10`, `delta = 0.1`. -/
theorem zoom_clamp_spec_witness :
    c10.near ≤ c10.far ∧
    (zoom c10 0.1).distance = clamp (c10.distance * (1 + 0.1)) c10.near c10.far :=
  ⟨by norm_num [c10], (zoom_clamp_spec c10 0.1 (by norm_num [c10])).1⟩

/-- C5: `reset(e)` restores `fov` unconditionally, restores `distance` unless
ctrl is held, and restores `azimuth`, `elevation`, `target` unless ctrl or alt
is held. -/
theorem reset_modifier_semantics (c : Camera) (e : ModKeys) :
    (reset c e).fov = defaults.fov ∧
    (reset c e).distance = (if e.ctrlKey then c.distance else defaults.distance) ∧
    (reset c e).azimuth = (if e.altKey || e.ctrlKey then c.azimuth else defaults.azimuth) ∧
    (reset c e).elevation = (if e.altKey || e.ctrlKey then c.elevation else defaults.elevation) ∧
    (reset c e).target = (if e.altKey || e.ctrlKey then c.target else defaults.target) := by
  rcases e with ⟨ct, al⟩
  cases ct <;> cases al <;> simp [reset, updatePosition]

/-- C6: `pan` leaves `distance` and `fov` exactly unchanged, and `orbit`
leaves `target` and `distance` exactly unchanged. -/
theorem pan_orbit_frame_preservation (c : Camera) (dx dy dz : ℝ) :
    (pan c dx dy dz).distance = c.distance ∧
    (pan c dx dy dz).fov = c.fov ∧
    (orbit c dx dy).target = c.target ∧
    (orbit c dx dy).distance = c.distance :=
  ⟨rfl, rfl, rfl, rfl⟩

/-- C10: the wheel listener dispatches by an if/else chain in which alt takes
precedence over ctrl: alt selects `adjFOVWithoutZoom(deltaY·FOV_SPEED)` (even
when ctrl is also set), otherwise ctrl selects `adjFOV`, otherwise `zoom`. -/
theorem wheel_modifier_dispatch (e : WheelEvent) (c : Camera) :
    (e.altKey = true → wheelListener e c = adjFOVWithoutZoom c (e.deltaY * FOV_SPEED)) ∧
    (e.altKey = false → e.ctrlKey = true → wheelListener e c = adjFOV c (e.deltaY * FOV_SPEED)) ∧
    (e.altKey = false → e.ctrlKey = false → wheelListener e c = zoom c (e.deltaY * ZOOM_SPEED)) := by
  rcases e with ⟨dY, ct, al⟩
  cases ct <;> cases al <;> simp [wheelListener]

/-- Witness for `wheel_modifier_dispatch`: with both alt and ctrl set on the
event, `adjFOVWithoutZoom` is the operation invoked. -/
theorem wheel_modifier_dispatch_witness :
    wheelListener ⟨1, true, true⟩ c10 =
      adjFOVWithoutZoom c10 ((WheelEvent.mk 1 true true).deltaY * FOV_SPEED) :=
  (wheel_modifier_dispatch ⟨1, true, true⟩ c10).1 rfl

/-- C1 (amended): the distance invariant `near ≤ distance ≤ far` is preserved
by orbit, pan, zoom and adjFOV, and by reset whenever the construction default
distance lies within the camera's clip range; `adjFOVWithoutZoom` is excluded,
since it recomputes distance without clamping. -/
theorem distance_invariant_amended (c : Camera) (hc : distInv c) (hnf : c.near ≤ c.far)
    (hdef : c.near ≤ defaults.distance ∧ defaults.distance ≤ c.far) :
    (∀ dx dy, distInv (orbit c dx dy)) ∧
    (∀ dx dy dz, distInv (pan c dx dy dz)) ∧
    (∀ delta, distInv (zoom c delta)) ∧
    (∀ delta, distInv (adjFOV c delta)) ∧
    (∀ e, distInv (reset c e)) := by
  refine ⟨fun dx dy => hc, fun dx dy dz => hc,
    fun delta => ⟨le_clamp _ _ _, clamp_le_of_le _ _ _ hnf⟩, fun delta => hc, fun e => ?_⟩
  rcases e with ⟨ct, al⟩
  cases ct <;> cases al
  · exact hdef
  · exact hdef
  · exact hc
  · exact hc

/-- Witness for `distance_invariant_amended` at the default camera. -/
theorem distance_invariant_amended_witness : distInv (zoom (mkCamera defaults) 0.5) :=
  ((distance_invariant_amended (mkCamera defaults)
      (by constructor <;> norm_num [mkCamera, updatePosition, defaults])
      (by norm_num [mkCamera, updatePosition, defaults])
      (by constructor <;> norm_num [mkCamera, updatePosition, defaults])).2.2.1) 0.5

/-- C1 counterexample: starting from `cBad`, whose distance satisfies the
invariant, `adjFOVWithoutZoom (-10)` drives distance strictly above `far`
(near and far themselves are untouched), refuting the claim that every public
pose-mutating operation preserves `near ≤ distance ≤ far`. -/
theorem distance_invariant_counterexample :
    (cBad.near ≤ cBad.distance ∧ cBad.distance ≤ cBad.far) ∧
    (adjFOVWithoutZoom cBad (-10)).near = cBad.near ∧
    (adjFOVWithoutZoom cBad (-10)).far = cBad.far ∧
    cBad.far < (adjFOVWithoutZoom cBad (-10)).distance := by
  have hmm : maxFOV + (-10) ≤ minFOV := by
    unfold minFOV maxFOV toRad
    have h4 := Real.pi_lt_four
    have h0 := Real.pi_pos
    nlinarith
  have hclamp : clamp (maxFOV + (-10)) minFOV maxFOV = minFOV := by
    unfold clamp
    rw [min_eq_right (by linarith), max_eq_left hmm]
  have hd : (adjFOVWithoutZoom cBad (-10)).distance
      = Real.tan (maxFOV / 2) * 1e2 / Real.tan (clamp (maxFOV + (-10)) minFOV maxFOV / 2) := rfl
  rw [hclamp] at hd
  have t1 : 0 < Real.tan (minFOV / 2) :=
    tan_half_pos_of_fov_range minFOV le_rfl minFOV_le_maxFOV
  have t2 : Real.tan (minFOV / 2) < Real.tan (maxFOV / 2) := by
    apply Real.tan_lt_tan_of_nonneg_of_lt_pi_div_two
    · have h := minFOV_pos
      linarith
    · exact maxFOV_half_lt_pi_div_two
    · unfold minFOV maxFOV toRad
      have h0 := Real.pi_pos
      nlinarith
  refine ⟨⟨?_, ?_⟩, rfl, rfl, ?_⟩
  · show (0.1 : ℝ) ≤ 1e2
    norm_num
  · show (1e2 : ℝ) ≤ 1e2
    norm_num
  · rw [hd, lt_div_iff₀ t1]
    show (1e2 : ℝ) * Real.tan (minFOV / 2) < Real.tan (maxFOV / 2) * 1e2
    nlinarith

/-- C4: `adjFOVWithoutZoom(delta)` clamps the new fov to `[minFOV, maxFOV]`
and, whenever the clamp is not hit, exactly preserves the apparent size
`tan(fov/2)·distance`. -/
theorem adjFOVWithoutZoom_apparent_size (c : Camera) (delta : ℝ) :
    minFOV ≤ (adjFOVWithoutZoom c delta).fov ∧
    (adjFOVWithoutZoom c delta).fov ≤ maxFOV ∧
    (minFOV ≤ c.fov + delta → c.fov + delta ≤ maxFOV →
      Real.tan ((adjFOVWithoutZoom c delta).fov / 2) * (adjFOVWithoutZoom c delta).distance =
        Real.tan (c.fov / 2) * c.distance) := by
  have hfov : (adjFOVWithoutZoom c delta).fov = clamp (c.fov + delta) minFOV maxFOV := rfl
  refine ⟨?_, ?_, ?_⟩
  · rw [hfov]
    exact le_clamp _ _ _
  · rw [hfov]
    exact clamp_le_of_le _ _ _ minFOV_le_maxFOV
  · intro h1 h2
    have hcl : clamp (c.fov + delta) minFOV maxFOV = c.fov + delta := clamp_eq_of_mem _ _ _ h1 h2
    have hdist : (adjFOVWithoutZoom c delta).distance
        = Real.tan (c.fov / 2) * c.distance /
            Real.tan (clamp (c.fov + delta) minFOV maxFOV / 2) := rfl
    have ht : 0 < Real.tan ((c.fov + delta) / 2) := tan_half_pos_of_fov_range _ h1 h2
    rw [hfov, hdist, hcl, mul_comm, div_mul_cancel₀ _ (ne_of_gt ht)]

/-- Witness for `adjFOVWithoutZoom_apparent_size` at `c10`, `delta = 0`. -/
theorem adjFOVWithoutZoom_apparent_size_witness :
    Real.tan ((adjFOVWithoutZoom c10 0).fov / 2) * (adjFOVWithoutZoom c10 0).distance =
      Real.tan (c10.fov / 2) * c10.distance :=
  (adjFOVWithoutZoom_apparent_size c10 0).2.2
    (by
      show minFOV ≤ toRad 60 + 0
      unfold minFOV toRad
      have h0 := Real.pi_pos
      nlinarith)
    (by
      show toRad 60 + 0 ≤ maxFOV
      unfold maxFOV toRad
      have h0 := Real.pi_pos
      nlinarith)

/-- C7: after each pose-mutating operation, and after construction, `position`
equals `target + distance·(cos el·sin az, sin el, cos el·cos az)`; a per-tick
`handleInputs` application preserves this invariant. -/
theorem position_invariant_spec (c : Camera) (fl : KeyFlags) (ks : KeyState) (m : ℝ)
    (hc : posInv c) :
    (∀ dx dy, posInv (orbit c dx dy)) ∧
    (∀ dx dy dz, posInv (pan c dx dy dz)) ∧
    (∀ delta, posInv (zoom c delta)) ∧
    (∀ delta, posInv (adjFOV c delta)) ∧
    (∀ delta, posInv (adjFOVWithoutZoom c delta)) ∧
    (∀ e, posInv (reset c e)) ∧
    posInv (handleInputs fl ks c m) ∧
    (∀ d, posInv (mkCamera d)) :=
  ⟨fun dx dy => posInv_orbit c dx dy, fun dx dy dz => posInv_pan c dx dy dz,
    fun delta => posInv_zoom c delta, fun delta => posInv_adjFOV c delta,
    fun delta => posInv_adjFOVWithoutZoom c delta, fun e => posInv_reset c e,
    posInv_handleInputs fl ks c m hc, fun d => posInv_mkCamera d⟩

/-- Witness for `position_invariant_spec`: the invariant survives a tick of
`handleInputs` from the freshly constructed camera. -/
theorem position_invariant_spec_witness :
    posInv (handleInputs fl0 ks0 (mkCamera defaults) 1) :=
  (position_invariant_spec (mkCamera defaults) fl0 ks0 1 rfl).2.2.2.2.2.2.1

/-- C8 (amended): after a guard-passing key event, `keyZoom` is mutually
exclusive with `keyFOV` and `keyFOVWithoutZoom`, and `keyFOV` and
`keyFOVWithoutZoom` can only be simultaneously true when the event carried
both ctrl and alt; with both modifiers held, two flags are set at once, so
exclusivity of all three does not hold in general. -/
theorem zoom_flag_exclusivity_amended (e : KeyEvent) (val : Bool) (ks : KeyState)
    (fl : KeyFlags) (h : keyGuard e = false) :
    ((keyCamera e val ks fl).2.keyZoom = true →
      (keyCamera e val ks fl).2.keyFOV = false ∧
        (keyCamera e val ks fl).2.keyFOVWithoutZoom = false) ∧
    ((keyCamera e val ks fl).2.keyFOV = true → (keyCamera e val ks fl).2.keyZoom = false) ∧
    ((keyCamera e val ks fl).2.keyFOVWithoutZoom = true →
      (keyCamera e val ks fl).2.keyZoom = false) ∧
    ((keyCamera e val ks fl).2.keyFOV = true →
      (keyCamera e val ks fl).2.keyFOVWithoutZoom = true →
      e.ctrlKey = true ∧ e.altKey = true) := by
  rcases hk : keyMap e.key with _ | ⟨t, d⟩
  · exfalso
    unfold keyGuard at h
    rw [hk] at h
    simp at h
  · obtain ⟨h1, h2, h3⟩ := keyCamera_flags e val ks fl t d hk h
    simp only [h1, h2, h3]
    cases e.ctrlKey <;> cases e.altKey <;>
      cases ((setKey ks t d val).zoom.zin || (setKey ks t d val).zoom.zout) <;> simp

/-- Witness for `zoom_flag_exclusivity_amended`: a plain (modifier-free) press
of the zoom-in key activates `keyZoom` and leaves both FOV flags false. -/
theorem zoom_flag_exclusivity_witness :
    (keyCamera eF true ks0 fl0).2.keyFOV = false ∧
    (keyCamera eF true ks0 fl0).2.keyFOVWithoutZoom = false :=
  (zoom_flag_exclusivity_amended eF true ks0 fl0 (by decide)).1 (by decide)

/-- C8 counterexample: a ctrl+alt press of the zoom-in key sets both `keyFOV`
and `keyFOVWithoutZoom`, so at most one of the three zoom-category flags being
true fails, and the subsequent tick invokes both `adjFOV` and
`adjFOVWithoutZoom`. -/
theorem zoom_flag_counterexample :
    (keyCamera eCtrlAltF true ks0 fl0).2.keyFOV = true ∧
    (keyCamera eCtrlAltF true ks0 fl0).2.keyFOVWithoutZoom = true := by
  constructor <;> rfl

/-- C9 (amended): when the guard holds (unbound key, focus in a text input, or
ctrl+R), `keyCamera` performs no mutation of the input state or derived flags,
and the keyup listener performs none at all; the keydown listener also leaves
the camera pose unchanged, except that the space key (outside the key map)
triggers a camera reset before the guard runs. -/
theorem key_guard_no_mutation_amended (e : KeyEvent) (val : Bool) (ks : KeyState)
    (fl : KeyFlags) (c : Camera) (h : keyGuard e = true) :
    keyCamera e val ks fl = (ks, fl) ∧
    keyupListener e ks fl c = (ks, fl, c) ∧
    (e.key ≠ " " → keydownListener e ks fl c = (ks, fl, c)) := by
  have key_any : ∀ v, keyCamera e v ks fl = (ks, fl) := by
    intro v
    unfold keyCamera
    simp [h]
  refine ⟨key_any val, ?_, ?_⟩
  · unfold keyupListener
    rw [key_any false]
  · intro hne
    unfold keydownListener
    rw [key_any true]
    have hcond : (e.key == " ") = false := by
      simp [hne]
    rw [hcond]
    simp

/-- Witness for `key_guard_no_mutation_amended` at the ctrl+R combo. -/
theorem key_guard_no_mutation_witness :
    keyCamera eCtrlR true ks0 fl0 = (ks0, fl0) ∧
    keyupListener eCtrlR ks0 fl0 cFov1 = (ks0, fl0, cFov1) :=
  ⟨(key_guard_no_mutation_amended eCtrlR true ks0 fl0 cFov1 (by decide)).1,
    (key_guard_no_mutation_amended eCtrlR true ks0 fl0 cFov1 (by decide)).2.1⟩

/-- C9 counterexample: the space key is not in the key map, yet the keydown
listener mutates the camera pose: it resets `fov` to the construction default,
changing it away from `cFov1`'s fov of 1 radian. -/
theorem space_key_mutation_counterexample :
    keyGuard eSpace = true ∧ keyMap eSpace.key = none ∧
    (keydownListener eSpace ks0 fl0 cFov1).2.2.fov ≠ cFov1.fov := by
  refine ⟨by decide, by decide, ?_⟩
  have hf : (keydownListener eSpace ks0 fl0 cFov1).2.2.fov = defaults.fov := rfl
  rw [hf]
  show toRad 60 ≠ (1 : ℝ)
  unfold toRad
  intro hcon
  have h3 := Real.pi_gt_three
  have hpi : Real.pi = 3 := by linarith
  linarith

end CameraSpec
